import Mathlib

/-!
# The image-mode driver of VIC: `main` of `vic_image.c`

`main` is a straight-line sequence of calls into collaborating subsystems
(MPI, logging, the VIC phases, the routing extension) around one `for` loop
over the time records.  Its control flow reads five values that the
collaborators hand back: the status of `MPI_Init`, `mpi_rank`,
`global_param.nrecs`, the result of `check_save_state_flag(current)` and the
status of `MPI_Finalize`.  These are gathered in `World`; a run of `main` is
the list of calls it makes, the final value of the global `current` and the
way the process ends.  The functions `main` calls are taken to return, `exit`
apart.  `log_err`, `log_info` and `debug` are macros of a logging header that
is not part of the sources at hand, so their expansions are part of the body
of `main`: `log_info` and `debug` are taken as messages after which control
continues, and whether the expansion of `log_err` continues or ends the
process is a parameter of the model (`World.log_err_exit`).
-/

namespace VIC

/-- The constant `MPI_SUCCESS` of `mpi.h` (the MPI standard fixes it to zero). -/
def MPI_SUCCESS : Int := 0

/-- The constant `EXIT_SUCCESS` of `stdlib.h`. -/
def EXIT_SUCCESS : Int := 0

/-- The constant `EXIT_FAILURE` of `stdlib.h`. -/
def EXIT_FAILURE : Int := 1

/-- Modelled from the spec: the constant `VIC_MPI_ROOT` comes from a header
that is not part of the sources at hand; section 3 says that rank 0 is the
coordinator. -/
def VIC_MPI_ROOT : Int := 0

/-- Modelled from the spec: the expansion of the macro `log_err`, whose
header is not part of the sources at hand, as section 6 describes it: every
failure after the start of the parallel runtime "exits through the logging
subsystem", with a non-zero exit code.  (Section 4.1 describes the one use in
`main` the other way, as a report after which the run goes on; `main` below
takes the expansion as a parameter and covers both.) -/
def log_err_exit_of_spec : Option Int := some EXIT_FAILURE

/-- The calls that occur in the text of `main`, each with the argument that
matters for the control flow.  A pointer `&(dmy[i])` is recorded as the index
`i`.  `rout_run` occurs in the text only inside a comment (line 136). -/
inductive Call where
  | MPI_Init
  | fprintf_stderr (status : Int)
  | exit (code : Int)
  | initialize_log
  | initialize_mpi
  | cmd_proc
  | vic_image_start
  | rout_start
  | vic_alloc
  | rout_alloc
  | vic_image_init
  | rout_init
  | vic_populate_model_state
  | vic_init_output (i : Nat)
  | vic_force
  | vic_image_run (i : Nat)
  | rout_run
  | vic_write_output (i : Nat)
  | rout_write
  | check_save_state_flag (current : Nat)
  | vic_store (i : Nat)
  | debug
  | vic_image_finalize
  | rout_finalize
  | MPI_Finalize
  | log_err (status : Int)
  | log_info
  deriving DecidableEq, Repr

/-- What the collaborators hand back to `main`. -/
structure World where
  /-- the status returned by `MPI_Init` -/
  MPI_Init_status : Int
  /-- the global `mpi_rank` as `initialize_mpi` leaves it -/
  mpi_rank : Int
  /-- the global `global_param.nrecs` as `vic_image_start` leaves it -/
  nrecs : Nat
  /-- the value of `check_save_state_flag(current)` -/
  check_save_state_flag : Nat → Bool
  /-- the status returned by `MPI_Finalize` -/
  MPI_Finalize_status : Int
  /-- the expansion of the macro `log_err`, which the logging header defines
  and the sources at hand do not show: `some code` when it reports and ends
  in `exit(code)`, `none` when it reports and control goes on to the next
  statement of `main` -/
  log_err_exit : Option Int

/-- How the process ends: `main` returns a code, or `exit` is called. -/
inductive Outcome where
  | returned (code : Int)
  | exited (code : Int)
  deriving DecidableEq, Repr

/-- The exit status of the process. -/
def Outcome.code : Outcome → Int
  | .returned c => c
  | .exited c => c

/-- A run of `main`: the calls made, in order, the final value of the global
`current`, and the outcome. -/
structure Run where
  trace : List Call
  current : Nat
  outcome : Outcome
  deriving DecidableEq, Repr

/-- The body of the `for` loop (lines 129-148) at loop counter `current`:
the calls are appended to the trace so far.  Modelled from the spec as far as
the macro `debug` goes: section 4.4 has the checkpoint write followed by a log
message naming the file, so the expansion is one message after which control
continues. -/
def loop_body (w : World) (current : Nat) (trace : List Call) : List Call :=
  -- read forcing data
  let trace := trace ++ [Call.vic_force]
  -- run vic over the domain
  let trace := trace ++ [Call.vic_image_run current]
  -- (rout_run is commented out)
  -- write history files
  let trace := trace ++ [Call.vic_write_output current]
  -- if output (routing)
  let trace := trace ++ [Call.rout_write]
  -- write state file
  let trace := trace ++ [Call.check_save_state_flag current]
  if w.check_save_state_flag current then
    trace ++ [Call.vic_store current, Call.debug]
  else
    trace

/-- The loop `for (current = ...; current < global_param.nrecs; current++)`
entered with the given value of `current`; the result is the value of
`current` at loop exit and the trace.  `current` and `nrecs` are `size_t`:
since `current < nrecs` holds before the increment, `current + 1` never
wraps. -/
def timestep_loop (w : World) (current : Nat) (trace : List Call) : Nat × List Call :=
  if current < w.nrecs then
    timestep_loop w (current + 1) (loop_body w current trace)
  else
    (current, trace)
termination_by w.nrecs - current

/-- Lines 163-165 of `main`: the completion line `log_info` and
`return EXIT_SUCCESS`.  Modelled from the spec as far as the macro `log_info`
goes: section 4.3 has the run "emit a completion log line", so the expansion
is one message after which control continues. -/
def main_completion (current : Nat) (trace : List Call) : Run :=
  let trace := trace ++ [Call.log_info]
  { trace := trace, current := current, outcome := Outcome.returned EXIT_SUCCESS }

/-- The function `main` (lines 78-166).  After a failed `MPI_Finalize` the
macro `log_err` is expanded in place: it reports the status and then, by
`World.log_err_exit`, either ends the process or lets `main` go on. -/
def main (w : World) : Run :=
  -- Initialize MPI
  let trace := [Call.MPI_Init]
  if w.MPI_Init_status ≠ MPI_SUCCESS then
    { trace := trace ++ [Call.fprintf_stderr w.MPI_Init_status, Call.exit EXIT_FAILURE]
      current := 0
      outcome := Outcome.exited EXIT_FAILURE }
  else
    let trace := trace ++ [Call.initialize_log]
    let trace := trace ++ [Call.initialize_mpi]
    -- process command line arguments
    let trace := if w.mpi_rank = VIC_MPI_ROOT then trace ++ [Call.cmd_proc] else trace
    let trace := trace ++ [Call.vic_image_start]
    let trace := trace ++ [Call.rout_start]
    let trace := trace ++ [Call.vic_alloc]
    let trace := trace ++ [Call.rout_alloc]
    let trace := trace ++ [Call.vic_image_init]
    let trace := trace ++ [Call.rout_init]
    let trace := trace ++ [Call.vic_populate_model_state]
    let trace := trace ++ [Call.vic_init_output 0]
    -- loop over all timesteps
    let (current, trace) := timestep_loop w 0 trace
    -- clean up
    let trace := trace ++ [Call.vic_image_finalize]
    let trace := trace ++ [Call.rout_finalize]
    -- finalize MPI
    let trace := trace ++ [Call.MPI_Finalize]
    if w.MPI_Finalize_status ≠ MPI_SUCCESS then
      let trace := trace ++ [Call.log_err w.MPI_Finalize_status]
      match w.log_err_exit with
      | some code =>
        { trace := trace ++ [Call.exit code]
          current := current
          outcome := Outcome.exited code }
      | none => main_completion current trace
    else
      main_completion current trace

/-! ## Projections of a trace used to state the properties -/

/-- The index `i` when the call receives `&(dmy[i])`. -/
def dmy_index : Call → Option Nat
  | .vic_init_output i => some i
  | .vic_image_run i => some i
  | .vic_write_output i => some i
  | .vic_store i => some i
  | _ => none

/-- The indices passed to `vic_image_run`, in call order. -/
def image_run_args (trace : List Call) : List Nat :=
  trace.filterMap fun c => match c with
    | .vic_image_run i => some i
    | _ => none

/-- The indices passed to `vic_write_output`, in call order. -/
def write_output_args (trace : List Call) : List Nat :=
  trace.filterMap fun c => match c with
    | .vic_write_output i => some i
    | _ => none

/-- The indices passed to `vic_store`, in call order. -/
def store_args (trace : List Call) : List Nat :=
  trace.filterMap fun c => match c with
    | .vic_store i => some i
    | _ => none

/-- The values of `current` passed to `check_save_state_flag`, in call order. -/
def trigger_args (trace : List Call) : List Nat :=
  trace.filterMap fun c => match c with
    | .check_save_state_flag i => some i
    | _ => none

/-- The calls made inside the `for` loop. -/
def is_loop_call : Call → Bool
  | .vic_force => true
  | .vic_image_run _ => true
  | .vic_write_output _ => true
  | .rout_write => true
  | .check_save_state_flag _ => true
  | .vic_store _ => true
  | .debug => true
  | _ => false

/-- The calls of a timestep other than the routing write and the debug
message: forcing, executor, output, checkpoint trigger, checkpoint write. -/
def is_timestep_call : Call → Bool
  | .vic_force => true
  | .vic_image_run _ => true
  | .vic_write_output _ => true
  | .check_save_state_flag _ => true
  | .vic_store _ => true
  | _ => false

/-- The calls that mark the lifecycle phases outside the loop. -/
def is_lifecycle_call : Call → Bool
  | .initialize_log => true
  | .initialize_mpi => true
  | .vic_image_start => true
  | .vic_alloc => true
  | .vic_image_init => true
  | .vic_populate_model_state => true
  | .vic_init_output _ => true
  | .vic_image_finalize => true
  | .MPI_Finalize => true
  | .log_info => true
  | _ => false

/-- The output call, the routing write and the checkpoint trigger. -/
def is_output_or_trigger : Call → Bool
  | .vic_write_output _ => true
  | .rout_write => true
  | .check_save_state_flag _ => true
  | _ => false

/-- A call of `log_err`, whatever the status. -/
def is_log_err : Call → Bool
  | .log_err _ => true
  | _ => false

/-- The call of `cmd_proc`. -/
def is_cmd_proc : Call → Bool
  | .cmd_proc => true
  | _ => false

/-- The calls by which a process reports the status of its own `MPI_Init` or
`MPI_Finalize` and ends: `fprintf(stderr, ...)`, `log_err`, `exit` and the
completion line. -/
def is_report_call : Call → Bool
  | .fprintf_stderr _ => true
  | .exit _ => true
  | .log_err _ => true
  | .log_info => true
  | _ => false

/-- The calls two workers are compared on: all but `cmd_proc` and the reports
of the process's own MPI statuses. -/
def is_shared_call (c : Call) : Bool :=
  !is_cmd_proc c && !is_report_call c

/-- The calls of the iteration with loop counter `t`. -/
def iteration (w : World) (t : Nat) : List Call :=
  loop_body w t []

/-- The calls before the loop when `MPI_Init` has succeeded. -/
def startup_calls (w : World) : List Call :=
  [Call.MPI_Init, Call.initialize_log, Call.initialize_mpi] ++
    (if w.mpi_rank = VIC_MPI_ROOT then [Call.cmd_proc] else []) ++
    [Call.vic_image_start, Call.rout_start, Call.vic_alloc, Call.rout_alloc,
      Call.vic_image_init, Call.rout_init, Call.vic_populate_model_state,
      Call.vic_init_output 0]

/-- The calls after `MPI_Finalize`: the report of a failure and the way the
run ends. -/
def report_calls (w : World) : List Call :=
  if w.MPI_Finalize_status ≠ MPI_SUCCESS then
    match w.log_err_exit with
    | some code => [Call.log_err w.MPI_Finalize_status, Call.exit code]
    | none => [Call.log_err w.MPI_Finalize_status, Call.log_info]
  else
    [Call.log_info]

/-- The calls after the loop. -/
def teardown_calls (w : World) : List Call :=
  [Call.vic_image_finalize, Call.rout_finalize, Call.MPI_Finalize] ++ report_calls w

/-- The outcome of a run that got past `MPI_Init`. -/
def final_outcome (w : World) : Outcome :=
  if w.MPI_Finalize_status ≠ MPI_SUCCESS then
    match w.log_err_exit with
    | some code => Outcome.exited code
    | none => Outcome.returned EXIT_SUCCESS
  else
    Outcome.returned EXIT_SUCCESS

/-- The calls of the loop. -/
def loop_calls (w : World) : List Call :=
  (List.range w.nrecs).flatMap (iteration w)

/-! ## Sample inputs -/

/-- A coordinator run of three records with a checkpoint at the odd
timesteps, where `MPI_Init` and `MPI_Finalize` succeed; `log_err` expands as
section 6 of the spec describes it. -/
def sample_world : World :=
  { MPI_Init_status := 0
    mpi_rank := 0
    nrecs := 3
    check_save_state_flag := fun t => t % 2 == 1
    MPI_Finalize_status := 0
    log_err_exit := log_err_exit_of_spec }

/-- The same run on the worker of rank 2. -/
def sample_worker : World :=
  { sample_world with mpi_rank := 2 }

/-- The coordinator's run where `MPI_Finalize` returns the status 5 and
`log_err` ends in `exit(EXIT_FAILURE)`. -/
def finalize_failure_world : World :=
  { sample_world with MPI_Finalize_status := 5 }

/-- A start where `MPI_Init` returns the status 1; no configuration is ever
read, so `global_param.nrecs` keeps its initial value zero. -/
def init_failure_world : World :=
  { MPI_Init_status := 1
    mpi_rank := 0
    nrecs := 0
    check_save_state_flag := fun _ => false
    MPI_Finalize_status := 0
    log_err_exit := log_err_exit_of_spec }

/-! ## The loop -/

theorem loop_body_eq (w : World) (t : Nat) (trace : List Call) :
    loop_body w t trace = trace ++ iteration w t := by
  unfold iteration loop_body
  by_cases h : w.check_save_state_flag t = true <;> simp [h]

theorem iteration_eq (w : World) (t : Nat) :
    iteration w t =
      [Call.vic_force, Call.vic_image_run t, Call.vic_write_output t, Call.rout_write,
        Call.check_save_state_flag t] ++
        (if w.check_save_state_flag t then [Call.vic_store t, Call.debug] else []) := by
  unfold iteration loop_body
  by_cases h : w.check_save_state_flag t = true <;> simp [h]

/-- The loop entered at `current` with `n = nrecs - current` records left
runs the iterations `current, current + 1, ..., nrecs - 1` in this order and
leaves `current` at `nrecs` (or where it was, when it was past `nrecs`). -/
theorem timestep_loop_eq (w : World) :
    ∀ (n current : Nat) (trace : List Call), w.nrecs - current = n →
      timestep_loop w current trace =
        (max current w.nrecs, trace ++ (List.range' current n).flatMap (iteration w)) := by
  intro n
  induction n with
  | zero =>
    intro current trace h
    have hle : w.nrecs ≤ current := by omega
    rw [timestep_loop]
    simp [Nat.not_lt.mpr hle, max_eq_left hle]
  | succ n ih =>
    intro current trace h
    have hlt : current < w.nrecs := by omega
    rw [timestep_loop]
    simp only [hlt, if_true]
    rw [ih (current + 1) (loop_body w current trace) (by omega), loop_body_eq,
      List.range'_succ, List.flatMap_cons, List.append_assoc]
    congr 1
    omega

/-- The whole loop of `main`, entered with `current = 0`. -/
theorem timestep_loop_zero (w : World) (trace : List Call) :
    timestep_loop w 0 trace =
      (w.nrecs, trace ++ (List.range w.nrecs).flatMap (iteration w)) := by
  rw [timestep_loop_eq w w.nrecs 0 trace (by omega), List.range_eq_range']
  simp

/-! ## The shape of a run -/

theorem main_of_init_failure (w : World) (h : w.MPI_Init_status ≠ MPI_SUCCESS) :
    main w =
      { trace := [Call.MPI_Init, Call.fprintf_stderr w.MPI_Init_status, Call.exit EXIT_FAILURE]
        current := 0
        outcome := Outcome.exited EXIT_FAILURE } := by
  simp [main, h]

/-- What follows `MPI_Finalize` is the completion line alone, the report of
the failure and the completion line, or the report and `exit`. -/
theorem report_calls_cases (w : World) :
    report_calls w = [Call.log_info] ∨
    report_calls w = [Call.log_err w.MPI_Finalize_status, Call.log_info] ∨
    ∃ code, report_calls w = [Call.log_err w.MPI_Finalize_status, Call.exit code] := by
  unfold report_calls
  by_cases hf : w.MPI_Finalize_status = MPI_SUCCESS
  · simp [hf]
  · cases hx : w.log_err_exit <;> simp [hf]

theorem report_calls_of_returns (w : World)
    (hret : w.MPI_Finalize_status = MPI_SUCCESS ∨ w.log_err_exit = none) :
    report_calls w =
      (if w.MPI_Finalize_status ≠ MPI_SUCCESS then [Call.log_err w.MPI_Finalize_status]
        else []) ++ [Call.log_info] := by
  unfold report_calls
  by_cases hf : w.MPI_Finalize_status = MPI_SUCCESS
  · simp [hf]
  · rcases hret with h | h
    · exact absurd h hf
    · simp [hf, h]

theorem final_outcome_of_returns (w : World)
    (hret : w.MPI_Finalize_status = MPI_SUCCESS ∨ w.log_err_exit = none) :
    final_outcome w = Outcome.returned EXIT_SUCCESS := by
  unfold final_outcome
  by_cases hf : w.MPI_Finalize_status = MPI_SUCCESS
  · simp [hf]
  · rcases hret with h | h
    · exact absurd h hf
    · simp [hf, h]

theorem main_of_init_success (w : World) (h : w.MPI_Init_status = MPI_SUCCESS) :
    main w =
      { trace := startup_calls w ++ loop_calls w ++ teardown_calls w
        current := w.nrecs
        outcome := final_outcome w } := by
  unfold main main_completion startup_calls teardown_calls report_calls final_outcome loop_calls
  simp only [h, ne_eq, not_true_eq_false, if_false, timestep_loop_zero]
  by_cases hr : w.mpi_rank = VIC_MPI_ROOT <;>
    by_cases hf : w.MPI_Finalize_status = MPI_SUCCESS <;>
      cases hx : w.log_err_exit <;> simp [hr, hf]

/-! ## Projections of the three parts of a run -/

theorem flatMap_range_singleton (n : Nat) (f : Nat → List Nat) (h : ∀ t, f t = [t]) :
    (List.range n).flatMap f = List.range n := by
  have hf : f = fun t => [t] := funext h
  rw [hf, List.flatMap_singleton']

theorem count_flatMap_range_one (n : Nat) (c : Call) (f : Nat → List Call)
    (h : ∀ t, (f t).count c = 1) : ((List.range n).flatMap f).count c = n := by
  induction n with
  | zero => simp
  | succ n ih => rw [List.range_succ, List.flatMap_append, List.count_append, ih]; simp [h]

theorem image_run_args_iteration (w : World) (t : Nat) :
    image_run_args (iteration w t) = [t] := by
  rw [iteration_eq]
  by_cases h : w.check_save_state_flag t = true <;> simp [image_run_args, h]

theorem write_output_args_iteration (w : World) (t : Nat) :
    write_output_args (iteration w t) = [t] := by
  rw [iteration_eq]
  by_cases h : w.check_save_state_flag t = true <;> simp [write_output_args, h]

theorem trigger_args_iteration (w : World) (t : Nat) :
    trigger_args (iteration w t) = [t] := by
  rw [iteration_eq]
  by_cases h : w.check_save_state_flag t = true <;> simp [trigger_args, h]

theorem image_run_args_loop_calls (w : World) :
    image_run_args (loop_calls w) = List.range w.nrecs := by
  unfold loop_calls image_run_args
  rw [List.filterMap_flatMap]
  exact flatMap_range_singleton _ _ (image_run_args_iteration w)

theorem write_output_args_loop_calls (w : World) :
    write_output_args (loop_calls w) = List.range w.nrecs := by
  unfold loop_calls write_output_args
  rw [List.filterMap_flatMap]
  exact flatMap_range_singleton _ _ (write_output_args_iteration w)

theorem trigger_args_loop_calls (w : World) :
    trigger_args (loop_calls w) = List.range w.nrecs := by
  unfold loop_calls trigger_args
  rw [List.filterMap_flatMap]
  exact flatMap_range_singleton _ _ (trigger_args_iteration w)

theorem count_vic_force_loop_calls (w : World) :
    (loop_calls w).count Call.vic_force = w.nrecs := by
  unfold loop_calls
  apply count_flatMap_range_one
  intro t
  rw [iteration_eq]
  by_cases h : w.check_save_state_flag t = true <;> simp [h]

theorem count_rout_write_loop_calls (w : World) :
    (loop_calls w).count Call.rout_write = w.nrecs := by
  unfold loop_calls
  apply count_flatMap_range_one
  intro t
  rw [iteration_eq]
  by_cases h : w.check_save_state_flag t = true <;> simp [h]

theorem is_loop_call_of_mem_iteration (w : World) (t : Nat) (c : Call)
    (hc : c ∈ iteration w t) : is_loop_call c = true := by
  rw [iteration_eq] at hc
  by_cases h : w.check_save_state_flag t = true <;> simp [h] at hc <;>
    rcases hc with rfl | rfl | rfl | rfl | rfl | rfl | rfl <;> rfl

theorem is_loop_call_of_mem_loop_calls (w : World) (c : Call) (hc : c ∈ loop_calls w) :
    is_loop_call c = true := by
  unfold loop_calls at hc
  rw [List.mem_flatMap] at hc
  obtain ⟨t, -, ht⟩ := hc
  exact is_loop_call_of_mem_iteration w t c ht

theorem not_is_loop_call_of_mem_startup (w : World) (c : Call) (hc : c ∈ startup_calls w) :
    is_loop_call c = false := by
  unfold startup_calls at hc
  by_cases h : w.mpi_rank = VIC_MPI_ROOT <;> simp [h] at hc <;>
    rcases hc with rfl | rfl | rfl | rfl | rfl | rfl | rfl | rfl | rfl | rfl | rfl | rfl <;> rfl

theorem not_is_loop_call_of_mem_teardown (w : World) (c : Call) (hc : c ∈ teardown_calls w) :
    is_loop_call c = false := by
  unfold teardown_calls at hc
  rcases report_calls_cases w with h | h | ⟨code, h⟩ <;> simp [h] at hc <;>
    rcases hc with rfl | rfl | rfl | rfl | rfl <;> rfl

theorem mem_image_run_args (l : List Call) (i : Nat) :
    i ∈ image_run_args l ↔ Call.vic_image_run i ∈ l := by
  unfold image_run_args
  rw [List.mem_filterMap]
  constructor
  · rintro ⟨c, hc, h⟩
    cases c <;> simp at h
    subst h
    exact hc
  · intro h
    exact ⟨_, h, rfl⟩

theorem mem_write_output_args (l : List Call) (i : Nat) :
    i ∈ write_output_args l ↔ Call.vic_write_output i ∈ l := by
  unfold write_output_args
  rw [List.mem_filterMap]
  constructor
  · rintro ⟨c, hc, h⟩
    cases c <;> simp at h
    subst h
    exact hc
  · intro h
    exact ⟨_, h, rfl⟩

theorem image_run_args_main (w : World) (h : w.MPI_Init_status = MPI_SUCCESS) :
    image_run_args (main w).trace = List.range w.nrecs := by
  rw [main_of_init_success w h]
  have hl := image_run_args_loop_calls w
  unfold image_run_args at hl ⊢
  simp only [List.filterMap_append, hl]
  unfold startup_calls teardown_calls
  by_cases hr : w.mpi_rank = VIC_MPI_ROOT <;>
    rcases report_calls_cases w with hf | hf | ⟨code, hf⟩ <;> simp [hr, hf]

theorem write_output_args_main (w : World) (h : w.MPI_Init_status = MPI_SUCCESS) :
    write_output_args (main w).trace = List.range w.nrecs := by
  rw [main_of_init_success w h]
  have hl := write_output_args_loop_calls w
  unfold write_output_args at hl ⊢
  simp only [List.filterMap_append, hl]
  unfold startup_calls teardown_calls
  by_cases hr : w.mpi_rank = VIC_MPI_ROOT <;>
    rcases report_calls_cases w with hf | hf | ⟨code, hf⟩ <;> simp [hr, hf]

theorem trigger_args_main (w : World) (h : w.MPI_Init_status = MPI_SUCCESS) :
    trigger_args (main w).trace = List.range w.nrecs := by
  rw [main_of_init_success w h]
  have hl := trigger_args_loop_calls w
  unfold trigger_args at hl ⊢
  simp only [List.filterMap_append, hl]
  unfold startup_calls teardown_calls
  by_cases hr : w.mpi_rank = VIC_MPI_ROOT <;>
    rcases report_calls_cases w with hf | hf | ⟨code, hf⟩ <;> simp [hr, hf]

theorem count_vic_force_main (w : World) (h : w.MPI_Init_status = MPI_SUCCESS) :
    (main w).trace.count Call.vic_force = w.nrecs := by
  rw [main_of_init_success w h]
  simp only [List.count_append, count_vic_force_loop_calls]
  unfold startup_calls teardown_calls
  by_cases hr : w.mpi_rank = VIC_MPI_ROOT <;>
    rcases report_calls_cases w with hf | hf | ⟨code, hf⟩ <;> simp [hr, hf]

theorem loop_calls_congr (w₁ w₂ : World) (hn : w₁.nrecs = w₂.nrecs)
    (hf : ∀ t < w₁.nrecs, w₁.check_save_state_flag t = w₂.check_save_state_flag t) :
    loop_calls w₁ = loop_calls w₂ := by
  unfold loop_calls
  rw [← hn]
  apply List.flatMap_congr
  intro t ht
  rw [iteration_eq, iteration_eq, hf t (List.mem_range.mp ht)]

theorem count_loop_calls_eq_zero (w : World) (c : Call) (h : is_loop_call c = false) :
    (loop_calls w).count c = 0 := by
  rw [List.count_eq_zero]
  intro hc
  rw [is_loop_call_of_mem_loop_calls w c hc] at h
  exact Bool.noConfusion h

theorem filter_loop_calls_eq_self (w : World) (p : Call → Bool)
    (h : ∀ c, is_loop_call c = true → p c = true) : (loop_calls w).filter p = loop_calls w := by
  rw [List.filter_eq_self]
  intro c hc
  exact h c (is_loop_call_of_mem_loop_calls w c hc)

theorem store_args_startup_calls (w : World) : store_args (startup_calls w) = [] := by
  unfold startup_calls store_args
  by_cases hr : w.mpi_rank = VIC_MPI_ROOT <;> simp [hr]

theorem store_args_teardown_calls (w : World) : store_args (teardown_calls w) = [] := by
  unfold teardown_calls store_args
  rcases report_calls_cases w with hf | hf | ⟨code, hf⟩ <;> simp [hf]

theorem filter_not_cmd_proc_startup_calls (w : World) :
    (startup_calls w).filter (fun c => !is_cmd_proc c) =
      [Call.MPI_Init, Call.initialize_log, Call.initialize_mpi, Call.vic_image_start,
        Call.rout_start, Call.vic_alloc, Call.rout_alloc, Call.vic_image_init, Call.rout_init,
        Call.vic_populate_model_state, Call.vic_init_output 0] := by
  unfold startup_calls
  by_cases hr : w.mpi_rank = VIC_MPI_ROOT <;> simp [hr, is_cmd_proc]

theorem filter_shared_startup_calls (w : World) :
    (startup_calls w).filter is_shared_call =
      [Call.MPI_Init, Call.initialize_log, Call.initialize_mpi, Call.vic_image_start,
        Call.rout_start, Call.vic_alloc, Call.rout_alloc, Call.vic_image_init, Call.rout_init,
        Call.vic_populate_model_state, Call.vic_init_output 0] := by
  unfold startup_calls
  by_cases hr : w.mpi_rank = VIC_MPI_ROOT <;>
    simp [hr, is_shared_call, is_cmd_proc, is_report_call]

theorem filter_shared_teardown_calls (w : World) :
    (teardown_calls w).filter is_shared_call =
      [Call.vic_image_finalize, Call.rout_finalize, Call.MPI_Finalize] := by
  unfold teardown_calls
  rcases report_calls_cases w with hf | hf | ⟨code, hf⟩ <;>
    simp [hf, is_shared_call, is_cmd_proc, is_report_call]

theorem filter_shared_loop_calls (w : World) :
    (loop_calls w).filter is_shared_call = loop_calls w :=
  filter_loop_calls_eq_self w _ (by
    intro c hc
    cases c <;> simp_all [is_loop_call, is_shared_call, is_cmd_proc, is_report_call])

theorem filter_shared_main (w : World) (h : w.MPI_Init_status = MPI_SUCCESS) :
    (main w).trace.filter is_shared_call =
      [Call.MPI_Init, Call.initialize_log, Call.initialize_mpi, Call.vic_image_start,
        Call.rout_start, Call.vic_alloc, Call.rout_alloc, Call.vic_image_init, Call.rout_init,
        Call.vic_populate_model_state, Call.vic_init_output 0] ++ loop_calls w ++
      [Call.vic_image_finalize, Call.rout_finalize, Call.MPI_Finalize] := by
  rw [main_of_init_success w h]
  simp only [List.filter_append, filter_shared_startup_calls, filter_shared_teardown_calls,
    filter_shared_loop_calls]

theorem store_args_main (w : World) (h : w.MPI_Init_status = MPI_SUCCESS) :
    store_args (main w).trace = store_args (loop_calls w) := by
  rw [main_of_init_success w h]
  have h1 := store_args_startup_calls w
  have h2 := store_args_teardown_calls w
  unfold store_args at h1 h2 ⊢
  simp only [List.filterMap_append, h1, h2, List.nil_append, List.append_nil]

theorem count_cmd_proc_main (w : World) :
    (main w).trace.count Call.cmd_proc =
      if w.MPI_Init_status = MPI_SUCCESS ∧ w.mpi_rank = VIC_MPI_ROOT then 1 else 0 := by
  by_cases h : w.MPI_Init_status = MPI_SUCCESS
  · rw [main_of_init_success w h]
    simp only [List.count_append, count_loop_calls_eq_zero w Call.cmd_proc rfl]
    unfold startup_calls teardown_calls
    by_cases hr : w.mpi_rank = VIC_MPI_ROOT <;>
      rcases report_calls_cases w with hf | hf | ⟨code, hf⟩ <;> simp [h, hr, hf]
  · rw [main_of_init_failure w h]
    simp [h]

theorem report_calls_congr (w₁ w₂ : World)
    (hfin : w₁.MPI_Finalize_status = w₂.MPI_Finalize_status)
    (hexp : w₁.log_err_exit = w₂.log_err_exit) :
    report_calls w₁ = report_calls w₂ ∧ final_outcome w₁ = final_outcome w₂ := by
  unfold report_calls final_outcome
  rw [hfin, hexp]
  exact ⟨rfl, rfl⟩

theorem dmy_index_of_mem_iteration (w : World) (t : Nat) (c : Call) (i : Nat)
    (hc : c ∈ iteration w t) (hi : dmy_index c = some i) : i = t := by
  rw [iteration_eq] at hc
  by_cases h : w.check_save_state_flag t = true <;> simp [h] at hc <;>
    rcases hc with rfl | rfl | rfl | rfl | rfl | rfl | rfl <;> simp [dmy_index] at hi <;>
    exact hi.symm

theorem dmy_index_of_mem_loop_calls (w : World) (c : Call) (i : Nat)
    (hc : c ∈ loop_calls w) (hi : dmy_index c = some i) : i < w.nrecs := by
  unfold loop_calls at hc
  rw [List.mem_flatMap] at hc
  obtain ⟨t, ht, hct⟩ := hc
  rw [dmy_index_of_mem_iteration w t c i hct hi]
  exact List.mem_range.mp ht

theorem dmy_index_of_mem_startup_calls (w : World) (c : Call) (i : Nat)
    (hc : c ∈ startup_calls w) (hi : dmy_index c = some i) : c = Call.vic_init_output 0 := by
  unfold startup_calls at hc
  by_cases h : w.mpi_rank = VIC_MPI_ROOT <;> simp [h] at hc <;>
    rcases hc with rfl | rfl | rfl | rfl | rfl | rfl | rfl | rfl | rfl | rfl | rfl | rfl <;>
    simp [dmy_index] at hi ⊢

theorem dmy_index_of_mem_teardown_calls (w : World) (c : Call) (i : Nat)
    (hc : c ∈ teardown_calls w) (hi : dmy_index c = some i) : False := by
  unfold teardown_calls at hc
  rcases report_calls_cases w with h | h | ⟨code, h⟩ <;> simp [h] at hc <;>
    rcases hc with rfl | rfl | rfl | rfl | rfl <;> simp [dmy_index] at hi

/-! ## The claims -/

/-- C1: in a run where `MPI_Init` succeeds and `global_param.nrecs = N`,
`vic_force`, `vic_image_run` and `vic_write_output` are each called exactly
`N` times, the `k`-th call of `vic_image_run` and of `vic_write_output`
receives `&(dmy[k])` (the arguments in call order are `0, 1, ..., N - 1`), and
for `N = 0` none of the three is called. -/
theorem C1_timestep_count (w : World) (N : Nat)
    (hinit : w.MPI_Init_status = MPI_SUCCESS) (hN : w.nrecs = N) :
    (main w).trace.count Call.vic_force = N ∧
    (image_run_args (main w).trace).length = N ∧
    (write_output_args (main w).trace).length = N ∧
    image_run_args (main w).trace = List.range N ∧
    write_output_args (main w).trace = List.range N ∧
    (N = 0 → ∀ c ∈ (main w).trace,
      c ≠ Call.vic_force ∧ (∀ i, c ≠ Call.vic_image_run i) ∧ ∀ i, c ≠ Call.vic_write_output i) := by
  subst hN
  have hf := count_vic_force_main w hinit
  have hr := image_run_args_main w hinit
  have hw := write_output_args_main w hinit
  refine ⟨hf, by rw [hr, List.length_range], by rw [hw, List.length_range], hr, hw, ?_⟩
  intro h0 c hc
  rw [h0] at hf hr hw
  refine ⟨?_, ?_, ?_⟩
  · rintro rfl
    exact (List.count_eq_zero.mp hf) hc
  · rintro i rfl
    have := (mem_image_run_args _ i).mpr hc
    rw [hr] at this
    simp at this
  · rintro i rfl
    have := (mem_write_output_args _ i).mpr hc
    rw [hw] at this
    simp at this

/-- The statement of C1 at the sample run of three records. -/
theorem C1_timestep_count_witness :
    sample_world.MPI_Init_status = MPI_SUCCESS ∧ sample_world.nrecs = 3 ∧
    (main sample_world).trace.count Call.vic_force = 3 ∧
    image_run_args (main sample_world).trace = List.range 3 ∧
    write_output_args (main sample_world).trace = List.range 3 :=
  have h := C1_timestep_count sample_world 3 rfl rfl
  ⟨rfl, rfl, h.1, h.2.2.2.1, h.2.2.2.2.1⟩

/-- C2: in a run that reaches the loop, the calls of forcing, executor,
output, checkpoint trigger and checkpoint write are exactly those of
iteration 0, then those of iteration 1, and so on up to `nrecs - 1`, and
within iteration `t` they are `vic_force`, `vic_image_run(&dmy[t])`,
`vic_write_output(&dmy[t])`, `check_save_state_flag(t)` and then
`vic_store(&dmy[t])` if and only if the trigger is true.  The second part
gives the whole trace: between the output call and the trigger stands the
routing write, and after `vic_store` the debug message; nothing of the loop
occurs before or after these blocks. -/
theorem C2_iteration_order (w : World) (hinit : w.MPI_Init_status = MPI_SUCCESS) :
    (main w).trace.filter is_timestep_call =
      (List.range w.nrecs).flatMap (fun t =>
        [Call.vic_force, Call.vic_image_run t, Call.vic_write_output t,
          Call.check_save_state_flag t] ++
          (if w.check_save_state_flag t then [Call.vic_store t] else [])) ∧
    ∃ before after,
      (∀ c ∈ before, is_loop_call c = false) ∧ (∀ c ∈ after, is_loop_call c = false) ∧
      (main w).trace =
        before ++
        (List.range w.nrecs).flatMap (fun t =>
          [Call.vic_force, Call.vic_image_run t, Call.vic_write_output t, Call.rout_write,
            Call.check_save_state_flag t] ++
            (if w.check_save_state_flag t then [Call.vic_store t, Call.debug] else [])) ++
        after := by
  rw [main_of_init_success w hinit]
  constructor
  · simp only [List.filter_append]
    have hs : (startup_calls w).filter is_timestep_call = [] := by
      unfold startup_calls
      by_cases hr : w.mpi_rank = VIC_MPI_ROOT <;> simp [hr, is_timestep_call]
    have ht : (teardown_calls w).filter is_timestep_call = [] := by
      unfold teardown_calls
      rcases report_calls_cases w with hf | hf | ⟨code, hf⟩ <;> simp [hf, is_timestep_call]
    rw [hs, ht, List.nil_append, List.append_nil]
    unfold loop_calls
    rw [List.filter_flatMap]
    congr 1
    funext t
    rw [iteration_eq]
    by_cases h : w.check_save_state_flag t = true <;> simp [h, is_timestep_call]
  · refine ⟨startup_calls w, teardown_calls w, not_is_loop_call_of_mem_startup w,
      not_is_loop_call_of_mem_teardown w, ?_⟩
    have hfun : iteration w = fun t =>
        [Call.vic_force, Call.vic_image_run t, Call.vic_write_output t, Call.rout_write,
          Call.check_save_state_flag t] ++
          (if w.check_save_state_flag t then [Call.vic_store t, Call.debug] else []) :=
      funext (iteration_eq w)
    unfold loop_calls
    rw [hfun]

/-- The statement of C2 at the sample run: the checkpoint is written at timestep 1 only. -/
theorem C2_iteration_order_witness :
    sample_world.MPI_Init_status = MPI_SUCCESS ∧
    (main sample_world).trace.filter is_timestep_call =
      [Call.vic_force, Call.vic_image_run 0, Call.vic_write_output 0,
        Call.check_save_state_flag 0,
       Call.vic_force, Call.vic_image_run 1, Call.vic_write_output 1,
        Call.check_save_state_flag 1, Call.vic_store 1,
       Call.vic_force, Call.vic_image_run 2, Call.vic_write_output 2,
        Call.check_save_state_flag 2] :=
  ⟨rfl, (C2_iteration_order sample_world rfl).1.trans (by decide)⟩

/-- C3: in a run where `MPI_Init` succeeds and every call returns (of the
calls of `main` only `log_err` may not: it is either not made, `MPI_Finalize`
having succeeded, or gives control back), the calls that mark the lifecycle
phases occur exactly once each and in the order `initialize_log`,
`initialize_mpi`, `vic_image_start`, `vic_alloc`, `vic_image_init`,
`vic_populate_model_state`, `vic_init_output`, then the loop, then
`vic_image_finalize`, `MPI_Finalize` and the completion log line, whatever
`nrecs` is: the trace is a startup part, the calls of the loop and a teardown
part; the first seven lie in the startup part, the last three in the teardown
part, neither part contains a call of the loop, a non-empty loop begins with
`vic_force`, the completion line is the last call and `main` returns
`EXIT_SUCCESS`. -/
theorem C3_lifecycle_order (w : World) (hinit : w.MPI_Init_status = MPI_SUCCESS)
    (hret : w.MPI_Finalize_status = MPI_SUCCESS ∨ w.log_err_exit = none) :
    (main w).trace.filter is_lifecycle_call =
      [Call.initialize_log, Call.initialize_mpi, Call.vic_image_start, Call.vic_alloc,
        Call.vic_image_init, Call.vic_populate_model_state, Call.vic_init_output 0,
        Call.vic_image_finalize, Call.MPI_Finalize, Call.log_info] ∧
    (∃ pre loop post,
      (main w).trace = pre ++ loop ++ post ∧
      pre.filter is_lifecycle_call =
        [Call.initialize_log, Call.initialize_mpi, Call.vic_image_start, Call.vic_alloc,
          Call.vic_image_init, Call.vic_populate_model_state, Call.vic_init_output 0] ∧
      post.filter is_lifecycle_call =
        [Call.vic_image_finalize, Call.MPI_Finalize, Call.log_info] ∧
      (∀ c ∈ pre, is_loop_call c = false) ∧
      (∀ c ∈ loop, is_loop_call c = true) ∧
      (∀ c ∈ post, is_loop_call c = false) ∧
      loop.count Call.vic_force = w.nrecs ∧
      (0 < w.nrecs → loop.head? = some Call.vic_force) ∧
      post.getLast? = some Call.log_info) ∧
    (main w).outcome = Outcome.returned EXIT_SUCCESS := by
  rw [main_of_init_success w hinit]
  have hs : (startup_calls w).filter is_lifecycle_call =
      [Call.initialize_log, Call.initialize_mpi, Call.vic_image_start, Call.vic_alloc,
        Call.vic_image_init, Call.vic_populate_model_state, Call.vic_init_output 0] := by
    unfold startup_calls
    by_cases hr : w.mpi_rank = VIC_MPI_ROOT <;> simp [hr, is_lifecycle_call]
  have ht : (teardown_calls w).filter is_lifecycle_call =
      [Call.vic_image_finalize, Call.MPI_Finalize, Call.log_info] := by
    unfold teardown_calls
    rw [report_calls_of_returns w hret]
    by_cases hf : w.MPI_Finalize_status = MPI_SUCCESS <;> simp [hf, is_lifecycle_call]
  have hl : (loop_calls w).filter is_lifecycle_call = [] := by
    rw [List.filter_eq_nil_iff]
    intro c hc
    have := is_loop_call_of_mem_loop_calls w c hc
    cases c <;> simp [is_loop_call] at this <;> simp [is_lifecycle_call]
  refine ⟨?_, ⟨startup_calls w, loop_calls w, teardown_calls w, rfl, hs, ht,
    not_is_loop_call_of_mem_startup w, is_loop_call_of_mem_loop_calls w,
    not_is_loop_call_of_mem_teardown w, count_vic_force_loop_calls w, ?_, ?_⟩,
    final_outcome_of_returns w hret⟩
  · simp only [List.filter_append, hs, ht, hl]
    rfl
  · intro hpos
    obtain ⟨n, hn⟩ : ∃ n, w.nrecs = n + 1 := ⟨w.nrecs - 1, by omega⟩
    unfold loop_calls
    rw [hn, List.range_succ_eq_map, List.flatMap_cons, iteration_eq]
    rfl
  · unfold teardown_calls
    rw [report_calls_of_returns w hret]
    by_cases hf : w.MPI_Finalize_status = MPI_SUCCESS <;> simp [hf]

/-- The statement of C3 at the sample run of a worker that is not the coordinator. -/
theorem C3_lifecycle_order_witness :
    sample_worker.MPI_Init_status = MPI_SUCCESS ∧
    sample_worker.MPI_Finalize_status = MPI_SUCCESS ∧
    (main sample_worker).trace.filter is_lifecycle_call =
      [Call.initialize_log, Call.initialize_mpi, Call.vic_image_start, Call.vic_alloc,
        Call.vic_image_init, Call.vic_populate_model_state, Call.vic_init_output 0,
        Call.vic_image_finalize, Call.MPI_Finalize, Call.log_info] ∧
    (main sample_worker).outcome = Outcome.returned EXIT_SUCCESS :=
  have h := C3_lifecycle_order sample_worker rfl (Or.inl rfl)
  ⟨rfl, rfl, h.1, h.2.2⟩

/-- C4: when `MPI_Init` returns a status other than `MPI_SUCCESS`, `main`
writes to standard error and calls `exit(EXIT_FAILURE)` at once: these are
the only calls after `MPI_Init`, the exit status is not zero, and none of
`initialize_log`, `initialize_mpi`, `cmd_proc`, `vic_image_start`,
`vic_alloc`, the calls of the loop, `vic_image_finalize` and `MPI_Finalize`
is made. -/
theorem C4_init_failure (w : World) (hfail : w.MPI_Init_status ≠ MPI_SUCCESS) :
    (main w).trace =
      [Call.MPI_Init, Call.fprintf_stderr w.MPI_Init_status, Call.exit EXIT_FAILURE] ∧
    (main w).outcome = Outcome.exited EXIT_FAILURE ∧
    (main w).outcome.code ≠ 0 ∧
    (∀ c ∈ (main w).trace,
      c ∉ [Call.initialize_log, Call.initialize_mpi, Call.cmd_proc, Call.vic_image_start,
        Call.rout_start, Call.vic_alloc, Call.rout_alloc, Call.vic_image_init, Call.rout_init,
        Call.vic_populate_model_state, Call.vic_image_finalize, Call.rout_finalize,
        Call.MPI_Finalize, Call.log_info] ∧
      is_loop_call c = false ∧ is_lifecycle_call c = false ∧ is_log_err c = false) := by
  rw [main_of_init_failure w hfail]
  refine ⟨rfl, rfl, by simp [Outcome.code, EXIT_FAILURE], ?_⟩
  intro c hc
  simp only [List.mem_cons, List.mem_singleton, List.not_mem_nil, or_false] at hc
  rcases hc with rfl | rfl | rfl <;> simp [is_loop_call, is_lifecycle_call, is_log_err]

/-- The statement of C4 at the start where `MPI_Init` returns 1. -/
theorem C4_init_failure_witness :
    init_failure_world.MPI_Init_status ≠ MPI_SUCCESS ∧
    (main init_failure_world).trace =
      [Call.MPI_Init, Call.fprintf_stderr 1, Call.exit 1] ∧
    (main init_failure_world).outcome.code = 1 :=
  ⟨by decide, (C4_init_failure init_failure_world (by decide)).1, by decide⟩

/-- C6: two workers that both got past `MPI_Init` (or both did not) and
agree on `nrecs` and on the checkpoint trigger at every timestep below
`nrecs`, and that may differ in `mpi_rank` and in the statuses their own
`MPI_Init` and `MPI_Finalize` return, make the same calls in the same order
once `cmd_proc` and the reports of those statuses are left out: past
`MPI_Init` this common sequence is the eleven startup calls, the iterations
`0, ..., nrecs - 1` with `vic_store` at the timesteps where the trigger is
true, and `vic_image_finalize`, `rout_finalize`, `MPI_Finalize`.  They call
`vic_store` at the same timesteps and leave `current` at the same value;
`cmd_proc` is called once by the worker of rank `VIC_MPI_ROOT` that got past
`MPI_Init` and never by another worker.  When the two workers also agree on
the MPI statuses and on the expansion of `log_err`, the whole traces agree
once `cmd_proc` is left out, the runs end the same way, and two workers that
are both the coordinator or both not make identical sequences of calls.
(Per-cell state and forcing data are not read by `main`.) -/
theorem C6_rank_independence (w₁ w₂ : World)
    (hi : w₁.MPI_Init_status = MPI_SUCCESS ↔ w₂.MPI_Init_status = MPI_SUCCESS)
    (hn : w₁.nrecs = w₂.nrecs)
    (hf : ∀ t < w₁.nrecs, w₁.check_save_state_flag t = w₂.check_save_state_flag t) :
    (main w₁).trace.filter is_shared_call = (main w₂).trace.filter is_shared_call ∧
    store_args (main w₁).trace = store_args (main w₂).trace ∧
    (main w₁).current = (main w₂).current ∧
    (∀ w : World, (main w).trace.count Call.cmd_proc =
      if w.MPI_Init_status = MPI_SUCCESS ∧ w.mpi_rank = VIC_MPI_ROOT then 1 else 0) ∧
    (w₁.MPI_Init_status = MPI_SUCCESS →
      (main w₁).trace.filter is_shared_call =
        [Call.MPI_Init, Call.initialize_log, Call.initialize_mpi, Call.vic_image_start,
          Call.rout_start, Call.vic_alloc, Call.rout_alloc, Call.vic_image_init,
          Call.rout_init, Call.vic_populate_model_state, Call.vic_init_output 0] ++
        (List.range w₁.nrecs).flatMap (fun t =>
          [Call.vic_force, Call.vic_image_run t, Call.vic_write_output t, Call.rout_write,
            Call.check_save_state_flag t] ++
            (if w₁.check_save_state_flag t then [Call.vic_store t, Call.debug] else [])) ++
        [Call.vic_image_finalize, Call.rout_finalize, Call.MPI_Finalize]) ∧
    (w₁.MPI_Init_status = w₂.MPI_Init_status →
      w₁.MPI_Finalize_status = w₂.MPI_Finalize_status →
      w₁.log_err_exit = w₂.log_err_exit →
        (main w₁).trace.filter (fun c => !is_cmd_proc c) =
          (main w₂).trace.filter (fun c => !is_cmd_proc c) ∧
        (main w₁).outcome = (main w₂).outcome ∧
        ((w₁.mpi_rank = VIC_MPI_ROOT ↔ w₂.mpi_rank = VIC_MPI_ROOT) →
          (main w₁).trace = (main w₂).trace)) := by
  have hloop := loop_calls_congr w₁ w₂ hn hf
  have hexplicit : w₁.MPI_Init_status = MPI_SUCCESS →
      (main w₁).trace.filter is_shared_call =
        [Call.MPI_Init, Call.initialize_log, Call.initialize_mpi, Call.vic_image_start,
          Call.rout_start, Call.vic_alloc, Call.rout_alloc, Call.vic_image_init,
          Call.rout_init, Call.vic_populate_model_state, Call.vic_init_output 0] ++
        (List.range w₁.nrecs).flatMap (fun t =>
          [Call.vic_force, Call.vic_image_run t, Call.vic_write_output t, Call.rout_write,
            Call.check_save_state_flag t] ++
            (if w₁.check_save_state_flag t then [Call.vic_store t, Call.debug] else [])) ++
        [Call.vic_image_finalize, Call.rout_finalize, Call.MPI_Finalize] := by
    intro h
    rw [filter_shared_main w₁ h]
    have hfun : iteration w₁ = fun t =>
        [Call.vic_force, Call.vic_image_run t, Call.vic_write_output t, Call.rout_write,
          Call.check_save_state_flag t] ++
          (if w₁.check_save_state_flag t then [Call.vic_store t, Call.debug] else []) :=
      funext (iteration_eq w₁)
    unfold loop_calls
    rw [hfun]
  have hfull : w₁.MPI_Init_status = w₂.MPI_Init_status →
      w₁.MPI_Finalize_status = w₂.MPI_Finalize_status →
      w₁.log_err_exit = w₂.log_err_exit →
        (main w₁).trace.filter (fun c => !is_cmd_proc c) =
          (main w₂).trace.filter (fun c => !is_cmd_proc c) ∧
        (main w₁).outcome = (main w₂).outcome ∧
        ((w₁.mpi_rank = VIC_MPI_ROOT ↔ w₂.mpi_rank = VIC_MPI_ROOT) →
          (main w₁).trace = (main w₂).trace) := by
    intro hst hfin hexp
    by_cases h : w₁.MPI_Init_status = MPI_SUCCESS
    · have h' : w₂.MPI_Init_status = MPI_SUCCESS := hst ▸ h
      obtain ⟨hrep, hout⟩ := report_calls_congr w₁ w₂ hfin hexp
      have htear : teardown_calls w₁ = teardown_calls w₂ := by
        unfold teardown_calls
        rw [hrep]
      rw [main_of_init_success w₁ h, main_of_init_success w₂ h']
      refine ⟨?_, hout, ?_⟩
      · simp only [List.filter_append, filter_not_cmd_proc_startup_calls, hloop, htear]
      · intro hrank
        have hstart : startup_calls w₁ = startup_calls w₂ := by
          unfold startup_calls
          by_cases hr : w₁.mpi_rank = VIC_MPI_ROOT
          · simp [hr, hrank.mp hr]
          · have hr2 : ¬ w₂.mpi_rank = VIC_MPI_ROOT := fun h2 => hr (hrank.mpr h2)
            simp [hr, hr2]
        simp only [hstart, hloop, htear]
    · have h' : w₂.MPI_Init_status ≠ MPI_SUCCESS := hst ▸ h
      rw [main_of_init_failure w₁ h, main_of_init_failure w₂ h', hst]
      exact ⟨rfl, rfl, fun _ => rfl⟩
  by_cases h : w₁.MPI_Init_status = MPI_SUCCESS
  · have h' : w₂.MPI_Init_status = MPI_SUCCESS := hi.mp h
    refine ⟨?_, ?_, ?_, count_cmd_proc_main, hexplicit, hfull⟩
    · rw [filter_shared_main w₁ h, filter_shared_main w₂ h', hloop]
    · rw [store_args_main w₁ h, store_args_main w₂ h', hloop]
    · rw [main_of_init_success w₁ h, main_of_init_success w₂ h']
      exact hn
  · have h' : w₂.MPI_Init_status ≠ MPI_SUCCESS := fun h2 => h (hi.mpr h2)
    refine ⟨?_, ?_, ?_, count_cmd_proc_main, hexplicit, hfull⟩
    · rw [main_of_init_failure w₁ h, main_of_init_failure w₂ h']
      simp [is_shared_call, is_cmd_proc, is_report_call]
    · rw [main_of_init_failure w₁ h, main_of_init_failure w₂ h']
      simp [store_args]
    · rw [main_of_init_failure w₁ h, main_of_init_failure w₂ h']

/-- The statement of C6 for the worker of rank 2, whose `MPI_Finalize`
succeeds, and the coordinator, whose `MPI_Finalize` returns 5. -/
theorem C6_rank_independence_witness :
    (sample_worker.MPI_Init_status = MPI_SUCCESS ↔
      finalize_failure_world.MPI_Init_status = MPI_SUCCESS) ∧
    sample_worker.mpi_rank ≠ finalize_failure_world.mpi_rank ∧
    sample_worker.MPI_Finalize_status ≠ finalize_failure_world.MPI_Finalize_status ∧
    (main sample_worker).trace.filter is_shared_call =
      (main finalize_failure_world).trace.filter is_shared_call ∧
    store_args (main sample_worker).trace = store_args (main finalize_failure_world).trace ∧
    (main sample_worker).trace.count Call.cmd_proc = 0 ∧
    (main finalize_failure_world).trace.count Call.cmd_proc = 1 :=
  have h := C6_rank_independence sample_worker finalize_failure_world
    (Iff.intro (fun _ => rfl) (fun _ => rfl)) rfl (fun _ _ => rfl)
  ⟨Iff.intro (fun _ => rfl) (fun _ => rfl), by decide, by decide, h.1, h.2.1,
    (h.2.2.2.1 sample_worker).trans (by decide),
    (h.2.2.2.1 finalize_failure_world).trans (by decide)⟩

/-- C9 as amended: `rout_run` is called in no run of `main`; in a run where
`MPI_Init` succeeds, `rout_write` is called `nrecs` times, once in every
iteration after `vic_write_output` and before `check_save_state_flag`, and
`rout_start`, `rout_alloc`, `rout_init` and `rout_finalize` are each called
exactly once, directly after `vic_image_start`, `vic_alloc`, `vic_image_init`
and `vic_image_finalize`. -/
theorem C9_routing_calls (w : World) :
    Call.rout_run ∉ (main w).trace ∧
    (w.MPI_Init_status = MPI_SUCCESS →
      (main w).trace.count Call.rout_write = w.nrecs ∧
      (main w).trace.filter is_output_or_trigger =
        (List.range w.nrecs).flatMap (fun t =>
          [Call.vic_write_output t, Call.rout_write, Call.check_save_state_flag t]) ∧
      (main w).trace.count Call.rout_start = 1 ∧
      [Call.vic_image_start, Call.rout_start] <:+: (main w).trace ∧
      (main w).trace.count Call.rout_alloc = 1 ∧
      [Call.vic_alloc, Call.rout_alloc] <:+: (main w).trace ∧
      (main w).trace.count Call.rout_init = 1 ∧
      [Call.vic_image_init, Call.rout_init] <:+: (main w).trace ∧
      (main w).trace.count Call.rout_finalize = 1 ∧
      [Call.vic_image_finalize, Call.rout_finalize] <:+: (main w).trace) := by
  constructor
  · by_cases h : w.MPI_Init_status = MPI_SUCCESS
    · rw [main_of_init_success w h]
      intro hmem
      simp only [List.mem_append] at hmem
      rcases hmem with (hs | hl) | ht
      · unfold startup_calls at hs
        by_cases hr : w.mpi_rank = VIC_MPI_ROOT <;> simp [hr] at hs
      · have := is_loop_call_of_mem_loop_calls w _ hl
        simp [is_loop_call] at this
      · unfold teardown_calls at ht
        rcases report_calls_cases w with hf | hf | ⟨code, hf⟩ <;> simp [hf] at ht
    · rw [main_of_init_failure w h]
      simp
  · intro h
    rw [main_of_init_success w h]
    have hcs : ∀ c : Call, is_loop_call c = false →
        (startup_calls w ++ loop_calls w ++ teardown_calls w).count c =
          (startup_calls w).count c + (teardown_calls w).count c := by
      intro c hc
      simp only [List.count_append, count_loop_calls_eq_zero w c hc, Nat.add_zero]
    refine ⟨?_, ?_, ?_, ?_, ?_, ?_, ?_, ?_, ?_, ?_⟩
    · simp only [List.count_append, count_rout_write_loop_calls]
      unfold startup_calls teardown_calls
      by_cases hr : w.mpi_rank = VIC_MPI_ROOT <;>
        rcases report_calls_cases w with hf | hf | ⟨code, hf⟩ <;> simp [hr, hf]
    · have hs : (startup_calls w).filter is_output_or_trigger = [] := by
        unfold startup_calls
        by_cases hr : w.mpi_rank = VIC_MPI_ROOT <;> simp [hr, is_output_or_trigger]
      have ht : (teardown_calls w).filter is_output_or_trigger = [] := by
        unfold teardown_calls
        rcases report_calls_cases w with hf | hf | ⟨code, hf⟩ <;> simp [hf, is_output_or_trigger]
      simp only [List.filter_append, hs, ht, List.nil_append, List.append_nil]
      unfold loop_calls
      rw [List.filter_flatMap]
      apply List.flatMap_congr
      intro t _
      rw [iteration_eq]
      by_cases hc : w.check_save_state_flag t = true <;> simp [hc, is_output_or_trigger]
    · rw [hcs Call.rout_start rfl]
      unfold startup_calls teardown_calls
      by_cases hr : w.mpi_rank = VIC_MPI_ROOT <;>
        rcases report_calls_cases w with hf | hf | ⟨code, hf⟩ <;> simp [hr, hf]
    · refine ⟨[Call.MPI_Init, Call.initialize_log, Call.initialize_mpi] ++
          (if w.mpi_rank = VIC_MPI_ROOT then [Call.cmd_proc] else []),
        [Call.vic_alloc, Call.rout_alloc, Call.vic_image_init, Call.rout_init,
          Call.vic_populate_model_state, Call.vic_init_output 0] ++
          loop_calls w ++ teardown_calls w, ?_⟩
      unfold startup_calls
      simp
    · rw [hcs Call.rout_alloc rfl]
      unfold startup_calls teardown_calls
      by_cases hr : w.mpi_rank = VIC_MPI_ROOT <;>
        rcases report_calls_cases w with hf | hf | ⟨code, hf⟩ <;> simp [hr, hf]
    · refine ⟨[Call.MPI_Init, Call.initialize_log, Call.initialize_mpi] ++
          (if w.mpi_rank = VIC_MPI_ROOT then [Call.cmd_proc] else []) ++
          [Call.vic_image_start, Call.rout_start],
        [Call.vic_image_init, Call.rout_init,
          Call.vic_populate_model_state, Call.vic_init_output 0] ++
          loop_calls w ++ teardown_calls w, ?_⟩
      unfold startup_calls
      simp
    · rw [hcs Call.rout_init rfl]
      unfold startup_calls teardown_calls
      by_cases hr : w.mpi_rank = VIC_MPI_ROOT <;>
        rcases report_calls_cases w with hf | hf | ⟨code, hf⟩ <;> simp [hr, hf]
    · refine ⟨[Call.MPI_Init, Call.initialize_log, Call.initialize_mpi] ++
          (if w.mpi_rank = VIC_MPI_ROOT then [Call.cmd_proc] else []) ++
          [Call.vic_image_start, Call.rout_start, Call.vic_alloc, Call.rout_alloc],
        [Call.vic_populate_model_state, Call.vic_init_output 0] ++
          loop_calls w ++ teardown_calls w, ?_⟩
      unfold startup_calls
      simp
    · rw [hcs Call.rout_finalize rfl]
      unfold startup_calls teardown_calls
      by_cases hr : w.mpi_rank = VIC_MPI_ROOT <;>
        rcases report_calls_cases w with hf | hf | ⟨code, hf⟩ <;> simp [hr, hf]
    · refine ⟨startup_calls w ++ loop_calls w, [Call.MPI_Finalize] ++ report_calls w, ?_⟩
      unfold teardown_calls
      simp

/-- The amended statement of C9 at the sample run. -/
theorem C9_routing_calls_witness :
    sample_world.MPI_Init_status = MPI_SUCCESS ∧
    Call.rout_run ∉ (main sample_world).trace ∧
    (main sample_world).trace.count Call.rout_write = 3 ∧
    (main sample_world).trace.count Call.rout_start = 1 ∧
    (main sample_world).trace.filter is_output_or_trigger =
      [Call.vic_write_output 0, Call.rout_write, Call.check_save_state_flag 0,
       Call.vic_write_output 1, Call.rout_write, Call.check_save_state_flag 1,
       Call.vic_write_output 2, Call.rout_write, Call.check_save_state_flag 2] :=
  have h := C9_routing_calls sample_world
  ⟨rfl, h.1, (h.2 rfl).1, (h.2 rfl).2.2.1, (h.2 rfl).2.1.trans (by decide)⟩

/-- C9 as stated fails in the run where `MPI_Init` returns the status 1:
`main` calls `fprintf` and `exit` and nothing else, so `rout_start`,
`rout_alloc`, `rout_init` and `rout_finalize` are called zero times, not
once. -/
theorem C9_counterexample :
    (main init_failure_world).trace =
      [Call.MPI_Init, Call.fprintf_stderr 1, Call.exit EXIT_FAILURE] ∧
    (main init_failure_world).trace.count Call.rout_start = 0 ∧
    (main init_failure_world).trace.count Call.rout_alloc = 0 ∧
    (main init_failure_world).trace.count Call.rout_init = 0 ∧
    (main init_failure_world).trace.count Call.rout_finalize = 0 ∧
    ¬ ((main init_failure_world).trace.count Call.rout_start = 1) := by
  decide

/-- C10: when `MPI_Init` succeeds and `dmy` holds exactly `nrecs` records,
then with `nrecs >= 1` every index `main` passes into `dmy` is in bounds; the
loop body runs with `current = 0, 1, ..., nrecs - 1` in this order and
`current` is `nrecs` when the loop exits; the indices used inside the loop
are in bounds for every `nrecs`, while `&(dmy[0])` is passed to
`vic_init_output` whatever `nrecs` is, so all indices are in bounds exactly
when `nrecs >= 1`. -/
theorem C10_dmy_index_safety {α : Type} (w : World) (dmy : List α)
    (hinit : w.MPI_Init_status = MPI_SUCCESS) (hlen : dmy.length = w.nrecs) :
    (1 ≤ w.nrecs → ∀ c ∈ (main w).trace, ∀ i, dmy_index c = some i → i < dmy.length) ∧
    trigger_args (main w).trace = List.range w.nrecs ∧
    (main w).current = w.nrecs ∧
    (∀ c ∈ (main w).trace, ∀ i, dmy_index c = some i →
      c = Call.vic_init_output 0 ∨ i < dmy.length) ∧
    Call.vic_init_output 0 ∈ (main w).trace ∧
    ((∀ c ∈ (main w).trace, ∀ i, dmy_index c = some i → i < dmy.length) ↔ 1 ≤ w.nrecs) := by
  have hcur : (main w).current = w.nrecs := by rw [main_of_init_success w hinit]
  have hmem0 : Call.vic_init_output 0 ∈ (main w).trace := by
    rw [main_of_init_success w hinit]
    unfold startup_calls
    simp
  have hloop : ∀ c ∈ (main w).trace, ∀ i, dmy_index c = some i →
      c = Call.vic_init_output 0 ∨ i < dmy.length := by
    rw [main_of_init_success w hinit]
    intro c hc i hi
    simp only [List.mem_append] at hc
    rcases hc with (hs | hl) | ht
    · exact Or.inl (dmy_index_of_mem_startup_calls w c i hs hi)
    · exact Or.inr (hlen ▸ dmy_index_of_mem_loop_calls w c i hl hi)
    · exact (dmy_index_of_mem_teardown_calls w c i ht hi).elim
  have hall : 1 ≤ w.nrecs → ∀ c ∈ (main w).trace, ∀ i, dmy_index c = some i →
      i < dmy.length := by
    intro h1 c hc i hi
    rcases hloop c hc i hi with h0 | hlt
    · subst h0
      simp only [dmy_index, Option.some.injEq] at hi
      omega
    · exact hlt
  refine ⟨hall, trigger_args_main w hinit, hcur, hloop, hmem0, ?_, hall⟩
  intro hb
  have := hb _ hmem0 0 rfl
  omega

/-- The statement of C10 at the sample run with three calendar records. -/
theorem C10_dmy_index_safety_witness :
    sample_world.MPI_Init_status = MPI_SUCCESS ∧
    [(2000, 1, 1), (2000, 1, 2), (2000, 1, 3)].length = sample_world.nrecs ∧
    trigger_args (main sample_world).trace = [0, 1, 2] ∧
    (main sample_world).current = 3 ∧
    (∀ c ∈ (main sample_world).trace, ∀ i, dmy_index c = some i → i < 3) :=
  have h := C10_dmy_index_safety sample_world [(2000, 1, 1), (2000, 1, 2), (2000, 1, 3)] rfl rfl
  ⟨rfl, rfl, h.2.1.trans (by decide), h.2.2.1, h.1 (by decide)⟩

end VIC
